import Mathlib

/-!
# Verification of the asynchronous task pipeline

Shallow embedding of the signal/slot notification primitive, the background
worker queues, the task completion paths and the request facades of the
repository (`Signal.hpp`/`Signal.cpp`, `Download.cpp`, `Decode.cpp`,
`Network.cpp`), together with proofs of the specified properties.

Slots (`SlotData` objects, heap allocated) are identified by natural numbers;
a `std::list` iterator into the slot list is represented by the identity of
the node it points at (`some id`), with `none` standing for the `end()`
iterator.  An iterator whose node has been erased is *dangling*: the model
maps any use of a dangling iterator (the undefined behaviour of the C++) to
the fault value `none` of the surrounding `Option`.
-/

/-- Identity of one heap-allocated `SlotData` record. -/
abbrev SlotId := Nat

/-- State of `detail::signal::SignalBase`: the slot list of a signal, in subscription
order, together with the stack of active dispatch cursors
(`IteratorStack`).  A cursor is `none` when it is the `end()` iterator,
otherwise the identity of the node it points at. -/
structure SignalBase where
  SlotList : List SlotId
  IteratorStack : List (Option SlotId)
deriving DecidableEq

/-- The successor of the node `t` in a slot list: models `++` on a
`std::list` iterator positioned at the (first) node `t`, and equally the
iterator returned by `SlotList.erase` of that node. `none` is `end()`. -/
def succAfter : List SlotId → SlotId → Option SlotId
  | [], _ => none
  | x :: xs, t => if x = t then xs.head? else succAfter xs t

/-- The cursor fix-up loop of `Connection::Disconnect`:
`for (auto& it : IteratorStack) if (next == it) it = next;`
where `next` is the iterator returned by the erase. -/
def fixupStack (stack : List (Option SlotId)) (next : Option SlotId) :
    List (Option SlotId) :=
  stack.map fun it => if it = next then next else it

/-- Models `Connection::Disconnect`, seen from the signal, for a connection whose
`mParent` is the slot `t`; when the slot is no longer in the list the
connection was already detached (`mParent == nullptr`) and the call is a
no-op.  The body erases the slot from `SlotList` and then runs the cursor
fix-up loop over `IteratorStack` with the erase's return value. -/
def Disconnect (s : SignalBase) (t : SlotId) : SignalBase :=
  if t ∈ s.SlotList then
    { SlotList := s.SlotList.erase t,
      IteratorStack := fixupStack s.IteratorStack (succAfter s.SlotList t) }
  else s

/-- A callback environment: for each slot, the list of slots its callback
disconnects (in order) when invoked.  `[]` is a callback with no effect on
the signal; `[k]` severs the subscriber `k`. -/
def CallbackEnv := SlotId → List SlotId

/-- Run the callback of slot `t`: each `Connection::Disconnect` it performs,
in order. -/
def runCallback (env : CallbackEnv) (s : SignalBase) (t : SlotId) :
    SignalBase :=
  (env t).foldl Disconnect s

/-- The loop of `Signal::Notify` for a single active dispatch (the cursor
pushed by this call is the only element of `IteratorStack`).  Each turn:
if the cursor is `end()` stop and pop it; otherwise save the cursor,
advance it past the node it points at, invoke that node's callback, and
continue.  Using a cursor that dangles at an erased node is undefined
behaviour in the C++ and yields the fault value `none` here.  Returns the
final signal state and the invocation log. -/
def notifyGo (env : CallbackEnv) :
    Nat → SignalBase → List SlotId → Option (SignalBase × List SlotId)
  | 0, _, _ => none
  | fuel + 1, s, log =>
    match s.IteratorStack.head? with
    | none => none
    | some none => some ({ s with IteratorStack := s.IteratorStack.tail }, log)
    | some (some t) =>
      if t ∈ s.SlotList then
        notifyGo env fuel
          (runCallback env
            { s with
              IteratorStack := succAfter s.SlotList t :: s.IteratorStack.tail }
            t)
          (log ++ [t])
      else
        none

/-- Models `Signal::Notify` (outermost, non-reentrant call): push a cursor at
`begin()` and run the dispatch loop.  The fuel `SlotList.length + 1` covers
every terminating run, since callbacks can only remove slots. -/
def Notify (env : CallbackEnv) (s : SignalBase) :
    Option (SignalBase × List SlotId) :=
  notifyGo env (s.SlotList.length + 1)
    { s with IteratorStack := s.SlotList.head? :: s.IteratorStack } []

/-- Sanity: an empty signal notifies nobody. -/
example : Notify (fun _ => []) ⟨[], []⟩ = some (⟨[], []⟩, []) := by decide

/-- Sanity: three nop subscribers are invoked in order. -/
example :
    Notify (fun _ => []) ⟨[5, 6, 7], []⟩ = some (⟨[5, 6, 7], []⟩, [5, 6, 7]) := by
  decide

/-!
## Connection handles

`Connection` objects (`Signal.cpp`): each holds `mParent`, a pointer to at
most one slot.  `Detach` (run by the destructor and by reassignment)
removes only this connection's back-reference from the slot's
`ConnectionList`; `Disconnect` additionally erases the slot itself from the
signal, whereupon `SlotBase::~SlotBase` detaches every other connection
still pointing at it.  The model keeps the connections of interest in a
list indexed by position; the back-reference collection of a slot is the
set of positions whose entry points at it. -/

/-- The connections around one signal: `Parents` has one entry per
`Connection` object, holding its `mParent` (`none` when empty/detached). -/
structure ConnState where
  sig : SignalBase
  Parents : List (Option SlotId)
deriving DecidableEq

/-- Models `Connection::Detach` on the connection at position `i`: drop this
connection's back-reference and null its `mParent`; the slot list of the
signal is not touched. -/
def Detach (m : ConnState) (i : Nat) : ConnState :=
  { m with Parents := m.Parents.set i none }

/-- Models `Connection::Disconnect` on the connection at position `i`: when its
`mParent` is a live slot `t`, erase `t` from the signal (with the cursor
fix-up) and let the slot's destructor detach every connection pointing at
it. -/
def DisconnectConn (m : ConnState) (i : Nat) : ConnState :=
  match m.Parents[i]? with
  | some (some t) =>
    { sig := Disconnect m.sig t,
      Parents := m.Parents.map fun p => if p = some t then none else p }
  | _ => m

/-!
## Task completion on the workers

`DownloadThread::MainLoop` (`Download.cpp`, identically `Network.cpp`)
handles each finished transfer: on `CURLE_OK` with response code 200 it
runs `CompleteWithSuccess`, on any other response code
`CompleteWithFailure` with `std::to_string(code)`, and on a transport
error `CompleteWithFailure` with the library's message.  Each
`CompleteWith...` posts one dispatcher job that notifies exactly one of
the task's two channels and then `delete`s the task.
`DecodeThread::Process` (`Decode.cpp`) does the same for decode tasks. -/

/-- What the task's dispatcher job does to the task, in order. -/
inductive TaskEffect
  | notifyFailed (msg : String)
  | notifyFinished
  | freeTask
deriving DecidableEq

/-- Outcome of one transfer at the transport level: `ok code` is
`CURLE_OK` with the given response code, `curlError` any other libcurl
result (with its formatted message). -/
inductive TransferOutcome
  | ok (code : Int)
  | curlError (msg : String)

/-- The completion path of `DownloadThread::MainLoop` for one finished
transfer: the effects of the dispatcher job it posts for the task. -/
def completeTransfer : TransferOutcome → List TaskEffect
  | .ok code =>
    if code = 200 then [.notifyFinished, .freeTask]
    else [.notifyFailed (toString code), .freeTask]
  | .curlError msg => [.notifyFailed msg, .freeTask]

/-- Models `DecodeThread::Process(std::unique_ptr<ApiTask>)`: `ReadApi` either
returns a result or throws, and the posted job notifies `Finished` or
`Failed` accordingly, then frees the task. -/
def processApiTask (result : Except String Unit) : List TaskEffect :=
  match result with
  | .error e => [.notifyFailed e, .freeTask]
  | .ok _ => [.notifyFinished, .freeTask]

/-- Models `DecodeThread::Process(std::unique_ptr<ImageTask>)`: `IMG_Load_RW`
returns a surface or null; on null the job carries `IMG_GetError()`. -/
def processImageTask (result : Option Unit) (errMsg : String) : List TaskEffect :=
  match result with
  | some _ => [.notifyFinished, .freeTask]
  | none => [.notifyFailed errMsg, .freeTask]

/-- Number of notifications in an effect list. -/
def countNotify (es : List TaskEffect) : Nat :=
  es.countP fun e =>
    match e with
    | .notifyFailed _ => true
    | .notifyFinished => true
    | .freeTask => false

/-- Number of success notifications in an effect list. -/
def countSuccess (es : List TaskEffect) : Nat :=
  es.countP fun e =>
    match e with
    | .notifyFinished => true
    | _ => false

/-- Number of frees in an effect list. -/
def countFree (es : List TaskEffect) : Nat :=
  es.countP fun e =>
    match e with
    | .freeTask => true
    | _ => false

/-- One whole run of the download worker over its queue: the first
`processed` tasks complete their transfers (with the recorded outcomes) and
go through the completion path; when the worker is destroyed the rest are
disposed of by the cleanup loop and the queue destructor, each freed
without any notification. -/
def downloadWorkerRun (tasks : List (Nat × TransferOutcome)) (processed : Nat) :
    List (Nat × List TaskEffect) :=
  (tasks.take processed).map (fun e => (e.1, completeTransfer e.2)) ++
    (tasks.drop processed).map (fun e => (e.1, [TaskEffect.freeTask]))

/-!
## Worker destruction

`DecodeThread::~DecodeThread`: set `mRunning = false`, `notify_all` the
condition variable, `join` the thread; the member destructor of `mQueue`
then frees every task still queued, without notifying anybody.
`DownloadThread::~DownloadThread`: same signalling via
`curl_multi_wakeup`, after which the cleanup loop at the end of `MainLoop`
frees the states already handed to CURL and the queue destructor frees the
rest. -/

/-- Observable steps of a worker destructor, in order. -/
inductive WorkerEffect
  | SetStopFlag
  | WakeWorker
  | JoinThread
  | FreeTask (id : Nat)
  | NotifyTask (id : Nat)
deriving DecidableEq

/-- Models `DecodeThread::~DecodeThread` with the given tasks still queued. -/
def destroyDecodeThread (queue : List Nat) : List WorkerEffect :=
  [.SetStopFlag, .WakeWorker, .JoinThread] ++ queue.map .FreeTask

/-- Models `DownloadThread::~DownloadThread` with `inflight` the tasks already
handed to CURL (freed by the cleanup loop of `MainLoop` before the join
returns) and `queue` the tasks still in `mQueue` (freed by the member
destructor). -/
def destroyDownloadThread (inflight queue : List Nat) : List WorkerEffect :=
  [.SetStopFlag, .WakeWorker] ++ inflight.map .FreeTask ++
    [.JoinThread] ++ queue.map .FreeTask

/-- Number of times task `i` is freed in a destructor trace. -/
def countFreeOf (i : Nat) (es : List WorkerEffect) : Nat :=
  es.count (.FreeTask i)

/-- Number of notifications in a destructor trace. -/
def countNotifyW (es : List WorkerEffect) : Nat :=
  es.countP fun e =>
    match e with
    | .NotifyTask _ => true
    | _ => false

/-!
## FIFO processing on the decode worker

`DecodeThread::Enqueue` pushes at the back of `mQueue` under the mutex;
`DecodeThread::MainLoop` pops one task from the front per iteration and
processes it before looking at the queue again. -/

/-- Decode worker: the pending queue and the log of processing starts. -/
structure DecodeThreadState where
  mQueue : List Nat
  startLog : List Nat
deriving DecidableEq

/-- Models `DecodeThread::Enqueue`: `mQueue.emplace(...)` pushes at the back. -/
def decodeEnqueue (q : List Nat) (t : Nat) : List Nat := q ++ [t]

/-- One iteration of `DecodeThread::MainLoop`: wait if the queue is empty,
otherwise pop the front task and start processing it. -/
def decodeMainStep (w : DecodeThreadState) : DecodeThreadState :=
  match w.mQueue with
  | [] => w
  | t :: rest => { mQueue := rest, startLog := w.startLog ++ [t] }

/-- Runs `n` iterations of `DecodeThread::MainLoop`. -/
def decodeMainRun : Nat → DecodeThreadState → DecodeThreadState
  | 0, w => w
  | n + 1, w => decodeMainRun n (decodeMainStep w)

/-!
## The Download facade and its launch

`Download::Launch` (`Download.cpp`): on an empty `mResourceLink` it stores
`"Resource link is empty"` in `mErrorMessage` and fires its own `Failed`
signal synchronously, creating no task; otherwise it builds a
`DownloadTask`, adds two connections to `mConnectionList`, subscribes them
to the task's channels and enqueues the task on the worker.
`AsyncDownload::Private::Enqueue` (`Network.cpp`) is the same shape with
the message carried on the signal. -/

/-- Externally visible effects of one `Launch`/`Enqueue` call. -/
inductive LaunchEffect
  | FailedNotify (msg : String)
  | EnqueueTask (link : String)
deriving DecidableEq

/-- The fields of the `Download` facade touched by `Launch`. -/
structure DownloadFacade where
  mResourceLink : String
  mConnectionList : List Nat
  mErrorMessage : String
  mInputStream : Option Nat
deriving DecidableEq

/-- Models `Download::Launch`.  The synchronous failure notification of the
empty-link branch carries the stored `mErrorMessage` (the `Failed` signal
of this facade has no argument; observers read `GetErrorMessage`). -/
def downloadLaunch (d : DownloadFacade) : DownloadFacade × List LaunchEffect :=
  if d.mResourceLink = "" then
    ({ d with mErrorMessage := "Resource link is empty" },
      [.FailedNotify "Resource link is empty"])
  else
    ({ d with
        mConnectionList :=
          d.mConnectionList ++
            [d.mConnectionList.length, d.mConnectionList.length + 1] },
      [.EnqueueTask d.mResourceLink])

/-- The fields of `AsyncDownload::Private` touched by `Enqueue`. -/
structure AsyncDownloadPrivate where
  mConnectionList : List Nat
  mResourceLink : String
  mErrorMessage : Option String
  mResult : Option Nat
deriving DecidableEq

/-- Models `AsyncDownload::Private::Enqueue`. -/
def asyncDownloadEnqueue (d : AsyncDownloadPrivate) :
    AsyncDownloadPrivate × List LaunchEffect :=
  if d.mResourceLink = "" then
    ({ d with mErrorMessage := some "Resource link is empty" },
      [.FailedNotify "Resource link is empty"])
  else
    ({ d with
        mConnectionList :=
          d.mConnectionList ++
            [d.mConnectionList.length, d.mConnectionList.length + 1] },
      [.EnqueueTask d.mResourceLink])

/-!
## Facade destruction versus an in-flight task

A launched `DownloadTask` carries two channels, each holding exactly the
one slot the facade subscribed (`Download::Launch`).  `Download::~Download`
calls `Disconnect` on every connection in `mConnectionList`, erasing those
slots.  The dispatcher job later posted by `CompleteWithFailure` or
`CompleteWithSuccess` notifies the corresponding channel and then frees
the task, whoever is still subscribed. -/

/-- The two channels of a `DownloadTask`. -/
structure TaskChannels where
  Failed : SignalBase
  Finished : SignalBase
deriving DecidableEq

/-- The task built by `Download::Launch`: the facade's slot `f1` subscribed
to `Failed`, its slot `f2` to `Finished`. -/
def launchedTask (f1 f2 : SlotId) : TaskChannels :=
  ⟨⟨[f1], []⟩, ⟨[f2], []⟩⟩

/-- Models `Download::~Download` while the task is in flight: `Disconnect` each
of the facade's connections into the task's channels. -/
def destroyFacade (f1 f2 : SlotId) (t : TaskChannels) : TaskChannels :=
  ⟨Disconnect t.Failed f1, Disconnect t.Finished f2⟩

/-- The dispatcher job of `CompleteWithFailure`: notify the `Failed`
channel, then free the task.  Returns the invoked subscribers and the
effects on the task. -/
def dispatchFailureJob (env : CallbackEnv) (t : TaskChannels) :
    Option (List SlotId × List TaskEffect) :=
  (Notify env t.Failed).map fun r => (r.2, [TaskEffect.freeTask])

/-- The dispatcher job of `CompleteWithSuccess`: notify the `Finished`
channel, then free the task. -/
def dispatchSuccessJob (env : CallbackEnv) (t : TaskChannels) :
    Option (List SlotId × List TaskEffect) :=
  (Notify env t.Finished).map fun r => (r.2, [TaskEffect.freeTask])

/-!
## The mutating accessors of ApiQuery and Image

`ApiQuery::GetResourceLink`/`GetInputStream` and their twins on `Image`
(`Decode.cpp`): the non-const overloads re-`emplace` the variant
`mDataSource` when it holds the other alternative - a default `Download`
has an empty resource link, a default `unique_ptr` is null. -/

/-- Models `mDataSource`: `std::variant<Download, std::unique_ptr<std::istream>>`,
with the `Download` alternative reduced to its resource link and the
stream alternative to an abstract handle (`none` = null pointer). -/
inductive DataSource
  | download (resourceLink : String)
  | stream (handle : Option Nat)
deriving DecidableEq

namespace ApiQuery

/-- Non-const `ApiQuery::GetResourceLink`: switch the variant to a default
`Download` if needed, and return (a reference to) the stored link. -/
def GetResourceLink (ds : DataSource) : DataSource × String :=
  match ds with
  | .download s => (.download s, s)
  | .stream _ => (.download "", "")

/-- Non-const `ApiQuery::GetInputStream`: switch the variant to a default
(null) stream if needed, and return (a reference to) the stored stream. -/
def GetInputStream (ds : DataSource) : DataSource × Option Nat :=
  match ds with
  | .stream h => (.stream h, h)
  | .download _ => (.stream none, none)

end ApiQuery

namespace Image

/-- Non-const `Image::GetResourceLink` (character-identical to the
`ApiQuery` overload in the source). -/
def GetResourceLink (ds : DataSource) : DataSource × String :=
  match ds with
  | .download s => (.download s, s)
  | .stream _ => (.download "", "")

/-- Non-const `Image::GetInputStream` (character-identical to the
`ApiQuery` overload in the source). -/
def GetInputStream (ds : DataSource) : DataSource × Option Nat :=
  match ds with
  | .stream h => (.stream h, h)
  | .download _ => (.stream none, none)

end Image

/-!
## Helper lemmas
-/

/-- The cursor fix-up loop of `Connection::Disconnect` never changes the
stack: it compares each entry with the iterator returned by the erase and,
on a match, stores that same iterator back. -/
theorem fixupStack_eq_self (stack : List (Option SlotId)) (next : Option SlotId) :
    fixupStack stack next = stack := by
  induction stack with
  | nil => rfl
  | cons c cs ih =>
    unfold fixupStack at *
    simp only [List.map_cons, ih]
    by_cases h : c = next <;> simp [h]

/-- Advancing the iterator at the first slot of the suffix `j :: rs` lands
on the head of `rs`. -/
theorem succAfter_append_cons {pre : List SlotId} (rs : List SlotId)
    {j : SlotId} (h : j ∉ pre) :
    succAfter (pre ++ j :: rs) j = rs.head? := by
  induction pre with
  | nil => simp [succAfter]
  | cons a pres ih =>
    have ha : a ≠ j := by
      intro hc
      exact h (hc ▸ List.mem_cons_self a pres)
    simp only [List.cons_append, succAfter, if_neg ha]
    exact ih (fun hc => h (List.mem_cons_of_mem a hc))

/-- Erasing the first slot of the suffix `j :: rs` removes exactly it. -/
theorem erase_append_cons {pre : List SlotId} (rs : List SlotId)
    {j : SlotId} (h : j ∉ pre) :
    (pre ++ j :: rs).erase j = pre ++ rs := by
  induction pre with
  | nil => simp
  | cons a pres ih =>
    have ha : a ≠ j := by
      intro hc
      exact h (hc ▸ List.mem_cons_self a pres)
    have hb : ¬(a == j) = true := by simpa using ha
    simp only [List.cons_append, List.erase_cons, if_neg hb]
    exact congrArg (a :: ·) (ih (fun hc => h (List.mem_cons_of_mem a hc)))

/-- The callback environment in which slot `k` severs its own subscriber
and everybody else does nothing. -/
def selfEnv (k : SlotId) : CallbackEnv :=
  fun j => if j = k then [k] else []

/-- Dispatch over a suffix of subscribers none of whom touches the signal:
each is invoked once, in order, and the slot list is unchanged. -/
theorem notifyGo_nop_run (env : CallbackEnv) :
    ∀ (rest pre log : List SlotId) (fuel : Nat),
      (pre ++ rest).Nodup → (∀ j ∈ rest, env j = []) → rest.length < fuel →
      notifyGo env fuel ⟨pre ++ rest, [rest.head?]⟩ log =
        some (⟨pre ++ rest, []⟩, log ++ rest) := by
  intro rest
  induction rest with
  | nil =>
    intro pre log fuel _ _ hfuel
    cases fuel with
    | zero => omega
    | succ f => simp [notifyGo]
  | cons j rs ih =>
    intro pre log fuel hnd henv hfuel
    cases fuel with
    | zero => omega
    | succ f =>
      have hjpre : j ∉ pre := by
        intro hc
        have := List.disjoint_of_nodup_append hnd
        exact this hc (List.mem_cons_self j rs)
      have hmem : j ∈ pre ++ j :: rs :=
        List.mem_append_right pre (List.mem_cons_self j rs)
      simp only [notifyGo, List.head?, if_pos hmem]
      have hj : env j = [] := henv j (List.mem_cons_self j rs)
      simp only [runCallback, hj, List.foldl_nil, List.tail]
      rw [succAfter_append_cons rs hjpre]
      have hnd' : ((pre ++ [j]) ++ rs).Nodup := by
        simpa [List.append_assoc] using hnd
      have henv' : ∀ i ∈ rs, env i = [] :=
        fun i hi => henv i (List.mem_cons_of_mem j hi)
      have := ih (pre ++ [j]) (log ++ [j]) f hnd' henv' (by
        simp only [List.length_cons] at hfuel
        omega)
      simpa [List.append_assoc] using this

/-- Dispatch over a suffix of subscribers in which only slot `k` acts, by
severing itself: the cursor has already moved past `k` when its callback
runs, so the erase invalidates no cursor; everyone is invoked once, in
order, and only `k` leaves the slot list. -/
theorem notifyGo_self_run (k : SlotId) :
    ∀ (rest pre log : List SlotId) (fuel : Nat),
      (pre ++ rest).Nodup → k ∈ rest → rest.length < fuel →
      notifyGo (selfEnv k) fuel ⟨pre ++ rest, [rest.head?]⟩ log =
        some (⟨pre ++ rest.erase k, []⟩, log ++ rest) := by
  intro rest
  induction rest with
  | nil =>
    intro pre log fuel _ hk _
    exact absurd hk (List.not_mem_nil k)
  | cons j rs ih =>
    intro pre log fuel hnd hk hfuel
    cases fuel with
    | zero => omega
    | succ f =>
      have hjpre : j ∉ pre := by
        intro hc
        have := List.disjoint_of_nodup_append hnd
        exact this hc (List.mem_cons_self j rs)
      have hmem : j ∈ pre ++ j :: rs :=
        List.mem_append_right pre (List.mem_cons_self j rs)
      simp only [notifyGo, List.head?, List.tail_cons, if_pos hmem]
      rw [succAfter_append_cons rs hjpre]
      by_cases hjk : j = k
      · subst hjk
        have hjrs : j ∉ rs := by
          have : (j :: rs).Nodup := (List.nodup_append.mp hnd).2.1
          exact (List.nodup_cons.mp this).1
        have hcb : selfEnv j j = [j] := by simp [selfEnv]
        simp only [runCallback, hcb, List.foldl_cons, List.foldl_nil]
        simp only [Disconnect, if_pos hmem]
        rw [erase_append_cons rs hjpre, succAfter_append_cons rs hjpre,
          fixupStack_eq_self]
        have hnd' : (pre ++ rs).Nodup := by
          have h1 := List.nodup_append.mp hnd
          exact List.nodup_append.mpr
            ⟨h1.1, (List.nodup_cons.mp h1.2.1).2,
              fun a ha ha' => h1.2.2 ha (List.mem_cons_of_mem j ha')⟩
        have henv' : ∀ i ∈ rs, selfEnv j i = [] := by
          intro i hi
          have : i ≠ j := fun hc => hjrs (hc ▸ hi)
          simp [selfEnv, this]
        have := notifyGo_nop_run (selfEnv j) rs pre (log ++ [j]) f hnd' henv'
          (by simp only [List.length_cons] at hfuel; omega)
        rw [this]
        simp [List.erase_cons_head, List.append_assoc]
      · have hcb : selfEnv k j = [] := by simp [selfEnv, hjk]
        simp only [runCallback, hcb, List.foldl_nil]
        have hkrs : k ∈ rs := by
          cases List.mem_cons.mp hk with
          | inl h => exact absurd h.symm hjk
          | inr h => exact h
        have hnd' : ((pre ++ [j]) ++ rs).Nodup := by
          simpa [List.append_assoc] using hnd
        have := ih (pre ++ [j]) (log ++ [j]) f hnd' hkrs
          (by simp only [List.length_cons] at hfuel; omega)
        have e : pre ++ j :: rs = pre ++ [j] ++ rs := by simp
        rw [e, this]
        have hkj : ¬(k == j) = true := by
          simpa using fun hc => hjk hc.symm
        simp [List.append_assoc, List.erase_cons, hkj, hjk]

/-- Shape of every completion path of `DownloadThread::MainLoop`: one
failure notification or one success notification, then the free. -/
theorem completeTransfer_shape (o : TransferOutcome) :
    (∃ m, completeTransfer o = [.notifyFailed m, .freeTask]) ∨
      completeTransfer o = [.notifyFinished, .freeTask] := by
  cases o with
  | ok code =>
    by_cases h : code = 200
    · right
      simp [completeTransfer, h]
    · left
      exact ⟨toString code, by simp [completeTransfer, h]⟩
  | curlError m => exact .inl ⟨m, rfl⟩

/-!
## The claims
-/

/-- C1: every execution path that completes a task on a worker
(`DownloadThread::MainLoop`'s transfer handling and both
`DecodeThread::Process` overloads) notifies exactly one of the task's two
channels, exactly once, and frees the task exactly once, afterwards; and
over a whole worker run, every task handed to the worker - including the
ones disposed of at shutdown - is freed exactly once and notified at most
once. -/
theorem completion_exactly_once :
    (∀ o : TransferOutcome,
      ((∃ m, completeTransfer o = [.notifyFailed m, .freeTask]) ∨
          completeTransfer o = [.notifyFinished, .freeTask]) ∧
        countNotify (completeTransfer o) = 1 ∧
        countFree (completeTransfer o) = 1) ∧
    (∀ e : Except String Unit,
      ((∃ m, processApiTask e = [.notifyFailed m, .freeTask]) ∨
          processApiTask e = [.notifyFinished, .freeTask]) ∧
        countNotify (processApiTask e) = 1 ∧
        countFree (processApiTask e) = 1) ∧
    (∀ (r : Option Unit) (msg : String),
      ((∃ m, processImageTask r msg = [.notifyFailed m, .freeTask]) ∨
          processImageTask r msg = [.notifyFinished, .freeTask]) ∧
        countNotify (processImageTask r msg) = 1 ∧
        countFree (processImageTask r msg) = 1) ∧
    (∀ (tasks : List (Nat × TransferOutcome)) (p : Nat),
      ∀ entry ∈ downloadWorkerRun tasks p,
        countFree entry.2 = 1 ∧ countNotify entry.2 ≤ 1) := by
  have hshape : ∀ es : List TaskEffect,
      ((∃ m, es = [.notifyFailed m, .freeTask]) ∨
        es = [.notifyFinished, .freeTask]) →
      countNotify es = 1 ∧ countFree es = 1 := by
    rintro es (⟨m, rfl⟩ | rfl) <;> exact ⟨rfl, rfl⟩
  refine ⟨?_, ?_, ?_, ?_⟩
  · intro o
    exact ⟨completeTransfer_shape o, hshape _ (completeTransfer_shape o)⟩
  · intro e
    have hs : (∃ m, processApiTask e = [.notifyFailed m, .freeTask]) ∨
        processApiTask e = [.notifyFinished, .freeTask] := by
      cases e with
      | error m => exact .inl ⟨m, rfl⟩
      | ok _ => exact .inr rfl
    exact ⟨hs, hshape _ hs⟩
  · intro r msg
    have hs : (∃ m, processImageTask r msg = [.notifyFailed m, .freeTask]) ∨
        processImageTask r msg = [.notifyFinished, .freeTask] := by
      cases r with
      | none => exact .inl ⟨msg, rfl⟩
      | some _ => exact .inr rfl
    exact ⟨hs, hshape _ hs⟩
  · intro tasks p entry hmem
    rcases List.mem_append.mp hmem with hin | hin
    · rcases List.mem_map.mp hin with ⟨e, _, rfl⟩
      have := hshape _ (completeTransfer_shape e.2)
      exact ⟨this.2, le_of_eq this.1⟩
    · rcases List.mem_map.mp hin with ⟨e, _, rfl⟩
      exact ⟨rfl, by simp [countNotify]⟩

/-- C1 witness: a one-task run completing with status 200. -/
theorem completion_exactly_once_witness :
    countFree ((0, completeTransfer (TransferOutcome.ok 200)).2) = 1 ∧
      countNotify ((0, completeTransfer (TransferOutcome.ok 200)).2) ≤ 1 :=
  completion_exactly_once.2.2.2 [(0, TransferOutcome.ok 200)] 1
    (0, completeTransfer (TransferOutcome.ok 200))
    (List.mem_singleton.mpr rfl)

/-- The environment of the C2 scenario: subscriber 0's callback severs
subscriber 1; every other callback does nothing. -/
def disconnectNextEnv : CallbackEnv :=
  fun t => if t = 0 then [1] else []

/-- C2: refuted by the code.  With three subscribers, subscriber 0
severing subscriber 1 during dispatch leaves the active cursor dangling at
the freed slot - the fix-up loop of `Connection::Disconnect` compares each
stack entry against the iterator returned by the erase (the successor),
never against the erased position, so it changes nothing and the resumed
`Notify` loop dereferences freed memory instead of invoking subscriber 2.
The second conjunct shows the broken primitive in isolation: a cursor
parked on slot 1 is still parked there after slot 1 is erased, rather than
being advanced to slot 2. -/
theorem notify_disconnect_ahead_dangles :
    Notify disconnectNextEnv ⟨[0, 1, 2], []⟩ = none ∧
      Disconnect ⟨[0, 1, 2], [some 1]⟩ 1 = ⟨[0, 2], [some 1]⟩ := by
  decide

/-- C3: a subscriber that severs its own subscription while its channel's
`Notify` runs causes no access to a freed slot, and every subscriber -
itself included - is still invoked exactly once, in subscription order;
afterwards only the disconnected slot is gone. -/
theorem notify_self_disconnect_safe (L : List SlotId) (k : SlotId)
    (h1 : L.Nodup) (h2 : k ∈ L) :
    Notify (selfEnv k) ⟨L, []⟩ = some (⟨L.erase k, []⟩, L) := by
  have := notifyGo_self_run k L [] [] (L.length + 1)
    (by simpa using h1) h2 (by omega)
  simpa [Notify] using this

/-- C3 witness: three subscribers, the middle one severing itself. -/
theorem notify_self_disconnect_safe_witness :
    Notify (selfEnv 1) ⟨[0, 1, 2], []⟩ = some (⟨[0, 2], []⟩, [0, 1, 2]) :=
  notify_self_disconnect_safe [0, 1, 2] 1 (by decide) (by decide)

/-- C4: destroying a `Download` facade while its task is in flight
(`Download::~Download` disconnects both of the facade's subscriptions into
the task's channels) means the later dispatcher job of
`CompleteWithFailure`/`CompleteWithSuccess` finds no subscriber: it invokes
no callback, yet still executes and frees the task; and the worker-side
completion path for the task still notifies once and frees once,
independent of the facade. -/
theorem facade_destruction_suppresses_delivery (f1 f2 : SlotId)
    (env : CallbackEnv) (o : TransferOutcome) :
    dispatchFailureJob env (destroyFacade f1 f2 (launchedTask f1 f2)) =
        some ([], [TaskEffect.freeTask]) ∧
      dispatchSuccessJob env (destroyFacade f1 f2 (launchedTask f1 f2)) =
        some ([], [TaskEffect.freeTask]) ∧
      countNotify (completeTransfer o) = 1 ∧
      countFree (completeTransfer o) = 1 := by
  have hd : destroyFacade f1 f2 (launchedTask f1 f2) = ⟨⟨[], []⟩, ⟨[], []⟩⟩ := by
    simp [destroyFacade, launchedTask, Disconnect, fixupStack,
      List.erase_cons_head]
  rw [hd]
  refine ⟨rfl, rfl, ?_⟩
  rcases completeTransfer_shape o with ⟨m, h⟩ | h <;> rw [h] <;> exact ⟨rfl, rfl⟩

/-- C5 counterexample: one subscriber (slot 7) with a single handle; the
handle is dropped (`Connection::~Connection` runs `Detach`), after which no
handle points at the slot any more - yet the slot is still in the channel's
list and a `Notify` still invokes it.  This refutes "dropping the last
Handle referencing a Subscriber detaches that Subscriber and removes it
from its Channel". -/
theorem detach_last_handle_keeps_subscriber :
    (Detach ⟨⟨[7], []⟩, [some 7]⟩ 0).Parents = [none] ∧
      (Detach ⟨⟨[7], []⟩, [some 7]⟩ 0).sig.SlotList = [7] ∧
      (Notify (fun _ => []) (Detach ⟨⟨[7], []⟩, [some 7]⟩ 0).sig).map
          Prod.snd =
        some [7] := by
  decide

/-- C5 (amended): dropping a Handle (`Detach`) never removes the Subscriber
from its Channel - not even the last Handle; a Subscriber is removed from
the collection by an explicit `Disconnect` through a Handle that references
it, which also clears every remaining back-reference to it. -/
theorem subscriber_removed_only_by_disconnect (m : ConnState) (i : Nat)
    (t : SlotId) (hp : m.Parents[i]? = some (some t))
    (ht : t ∈ m.sig.SlotList) :
    (Detach m i).sig.SlotList = m.sig.SlotList ∧
      (DisconnectConn m i).sig.SlotList = m.sig.SlotList.erase t ∧
      ∀ p ∈ (DisconnectConn m i).Parents, p ≠ some t := by
  refine ⟨rfl, ?_, ?_⟩
  · simp [DisconnectConn, hp, Disconnect, ht]
  · intro p hmem
    simp only [DisconnectConn, hp] at hmem
    rcases List.mem_map.mp hmem with ⟨q, _, rfl⟩
    by_cases hq : q = some t <;> simp [hq]

/-- C5 amended witness: disconnecting the single handle of slot 7 removes
the slot; detaching leaves it. -/
theorem subscriber_removed_only_by_disconnect_witness :
    (Detach ⟨⟨[7], []⟩, [some 7]⟩ 0).sig.SlotList =
        (⟨⟨[7], []⟩, [some 7]⟩ : ConnState).sig.SlotList ∧
      (DisconnectConn ⟨⟨[7], []⟩, [some 7]⟩ 0).sig.SlotList =
        List.erase [7] 7 ∧
      ∀ p ∈ (DisconnectConn ⟨⟨[7], []⟩, [some 7]⟩ 0).Parents, p ≠ some 7 :=
  subscriber_removed_only_by_disconnect ⟨⟨[7], []⟩, [some 7]⟩ 0 7
    (by decide) (by decide)

/-- C6: launching with an empty resource link (`Download::Launch`,
`AsyncDownload::Private::Enqueue`) synchronously fires exactly one failure
notification with the message "Resource link is empty", creates and
enqueues no task, and leaves every other facade field - connections,
stream/result, link - unchanged. -/
theorem empty_link_synchronous_failure (d : DownloadFacade)
    (a : AsyncDownloadPrivate) (hd : d.mResourceLink = "")
    (ha : a.mResourceLink = "") :
    downloadLaunch d =
        ({ d with mErrorMessage := "Resource link is empty" },
          [.FailedNotify "Resource link is empty"]) ∧
      asyncDownloadEnqueue a =
        ({ a with mErrorMessage := some "Resource link is empty" },
          [.FailedNotify "Resource link is empty"]) := by
  constructor
  · simp [downloadLaunch, hd]
  · simp [asyncDownloadEnqueue, ha]

/-- C6 witness: concrete facades with an empty link. -/
theorem empty_link_synchronous_failure_witness :
    downloadLaunch ⟨"", [], "", none⟩ =
        ({ (⟨"", [], "", none⟩ : DownloadFacade) with
            mErrorMessage := "Resource link is empty" },
          [.FailedNotify "Resource link is empty"]) ∧
      asyncDownloadEnqueue ⟨[], "", none, none⟩ =
        ({ (⟨[], "", none, none⟩ : AsyncDownloadPrivate) with
            mErrorMessage := some "Resource link is empty" },
          [.FailedNotify "Resource link is empty"]) :=
  empty_link_synchronous_failure ⟨"", [], "", none⟩ ⟨[], "", none, none⟩
    rfl rfl

/-- C7: for a transfer that completes at the transport level
(`CURLE_OK`), the success notification fires if and only if the response
code is 200; any other code yields exactly one failure notification whose
message is the decimal text of the code, so a 404 response fails with
message "404". -/
theorem transfer_success_iff_status_200 (code : Int) :
    (countSuccess (completeTransfer (.ok code)) = 1 ↔ code = 200) ∧
      (code ≠ 200 →
        completeTransfer (.ok code) =
          [.notifyFailed (toString code), .freeTask]) ∧
      completeTransfer (.ok 404) = [.notifyFailed "404", .freeTask] := by
  refine ⟨?_, ?_, by decide⟩
  · by_cases h : code = 200 <;>
      simp [completeTransfer, h, countSuccess, List.countP_cons]
  · intro h
    simp [completeTransfer, h]

/-- C7 witness: the 404 response. -/
theorem transfer_success_iff_status_200_witness :
    (countSuccess (completeTransfer (.ok 404)) = 1 ↔ (404 : Int) = 200) ∧
      completeTransfer (.ok 404) =
        [.notifyFailed (toString (404 : Int)), .freeTask] :=
  ⟨(transfer_success_iff_status_200 404).1,
    (transfer_success_iff_status_200 404).2.1 (by decide)⟩

/-- A run of freed tasks carries no notification. -/
theorem countNotifyW_map_free (l : List Nat) :
    countNotifyW (l.map WorkerEffect.FreeTask) = 0 := by
  induction l with
  | nil => rfl
  | cons a rest ih =>
    simp only [List.map_cons, countNotifyW, List.countP_cons] at *
    simp [ih]

/-- Freeing a queue of tasks frees task `i` as often as it was queued. -/
theorem count_free_map (i : Nat) (l : List Nat) :
    (l.map WorkerEffect.FreeTask).count (WorkerEffect.FreeTask i) =
      l.count i := by
  induction l with
  | nil => rfl
  | cons a rest ih => simp [List.count_cons, ih]

/-- C8: destroying a worker with tasks still queued
(`DecodeThread::~DecodeThread`, `DownloadThread::~DownloadThread`) first
signals the thread to stop, wakes it and joins it, then disposes of every
remaining task - each freed exactly as often as it was handed over, i.e.
exactly once - without firing any notification. -/
theorem worker_destruction_frees_without_notify
    (queue inflight q2 : List Nat) (i : Nat) :
    countNotifyW (destroyDecodeThread queue) = 0 ∧
      countFreeOf i (destroyDecodeThread queue) = queue.count i ∧
      (destroyDecodeThread queue).take 3 =
        [.SetStopFlag, .WakeWorker, .JoinThread] ∧
      countNotifyW (destroyDownloadThread inflight q2) = 0 ∧
      countFreeOf i (destroyDownloadThread inflight q2) =
        inflight.count i + q2.count i := by
  refine ⟨?_, ?_, rfl, ?_, ?_⟩
  · simp [destroyDecodeThread, countNotifyW, List.countP_append,
      List.countP_cons]
  · simp [destroyDecodeThread, countFreeOf, List.count_append,
      List.count_cons, count_free_map]
  · simp [destroyDownloadThread, countNotifyW, List.countP_append,
      List.countP_cons]
  · simp [destroyDownloadThread, countFreeOf, List.count_append,
      List.count_cons, count_free_map]

/-- Running the decode main loop for `n` iterations starts the first `n`
queued tasks, in queue order. -/
theorem decodeMainRun_startLog (n : Nat) :
    ∀ (q log : List Nat),
      decodeMainRun n ⟨q, log⟩ = ⟨q.drop n, log ++ q.take n⟩ := by
  induction n with
  | zero => intro q log; simp [decodeMainRun]
  | succ m ih =>
    intro q log
    cases q with
    | nil => simp [decodeMainRun, decodeMainStep, ih]
    | cons t rest =>
      simp [decodeMainRun, decodeMainStep, ih, List.append_assoc]

/-- C9: the decode worker pulls tasks strictly one per iteration from the
front of its FIFO queue: enqueuing T1, T2, T3 in that order makes their
processing start in the order T1, T2, T3, and in general a full run starts
every queued task in submission order. -/
theorem decode_worker_fifo_order (t1 t2 t3 : Nat) (q : List Nat) :
    (decodeMainRun 3
        ⟨decodeEnqueue (decodeEnqueue (decodeEnqueue [] t1) t2) t3,
          []⟩).startLog =
      [t1, t2, t3] ∧
      (decodeMainRun q.length ⟨q, []⟩).startLog = q := by
  constructor
  · simp [decodeEnqueue, decodeMainRun_startLog]
  · simp [decodeMainRun_startLog]

/-- C10: the non-const accessors of `ApiQuery` and `Image` re-seat the
`mDataSource` variant instead of failing: `GetResourceLink` on a facade
holding a stream destroys the stream and installs a default `Download`
with an empty link, returning that link; `GetInputStream` on a facade
holding a link discards it and installs a null stream slot; when the
variant already holds the requested alternative it is returned
unchanged. -/
theorem mutating_accessors_switch_variant (s : String) (h : Option Nat) :
    ApiQuery.GetResourceLink (.stream h) = (.download "", "") ∧
      ApiQuery.GetResourceLink (.download s) = (.download s, s) ∧
      ApiQuery.GetInputStream (.download s) = (.stream none, none) ∧
      ApiQuery.GetInputStream (.stream h) = (.stream h, h) ∧
      Image.GetResourceLink (.stream h) = (.download "", "") ∧
      Image.GetResourceLink (.download s) = (.download s, s) ∧
      Image.GetInputStream (.download s) = (.stream none, none) ∧
      Image.GetInputStream (.stream h) = (.stream h, h) :=
  ⟨rfl, rfl, rfl, rfl, rfl, rfl, rfl, rfl⟩
